import Mathlib

/-
  Verification development for the MyPortfolio repository.

  The repository has two verified slices:
  * a contact-form backend (an Express server embedded here as pure
    functions over explicit request, configuration and rate-limit state), and
  * a client-side photo pipeline (IndexedDB blob store, image
    normalization, and an object-URL lifecycle controller), embedded as a
    state machine over an explicit client state.

  External library behaviour that the repository merely configures
  (the validator.js email predicate, the express-validator normalizeEmail
  sanitizer, and the outcome of the nodemailer transport) is passed in as
  parameters; everything the repository itself computes is translated
  directly from the source.
-/

namespace MyPortfolio

/-! Backend data model (server embedded in the repository). -/

/-- One entry of the express-validator error array: the offending field
and the message attached with withMessage in the route definition. -/
structure FieldError where
  field : String
  msg : String
deriving DecidableEq, Repr

/-- The four string fields of a POST /api/contact body. -/
structure ContactRequest where
  name : String
  email : String
  subject : String
  message : String
deriving DecidableEq, Repr

/-- The fixed sender and recipient addresses (MAIL_FROM and MAIL_TO). -/
structure MailConfig where
  mailFrom : String
  mailTo : String
deriving DecidableEq, Repr

/-- The argument of transporter.sendMail in the handler.  The source
field names from and to are Lean keywords, hence fromAddr and toAddr. -/
structure Mail where
  fromAddr : String
  toAddr : String
  replyTo : String
  subject : String
  text : String
  html : String
deriving DecidableEq, Repr

/-- The possible responses of the contact endpoint, one constructor per
res.status call in the source plus the rate limiter rejection. -/
inductive ContactResponse where
  | badRequest (errors : List FieldError)
  | ok (message : String)
  | serverError (message : String)
  | tooMany
deriving DecidableEq, Repr

/-- HTTP status code of each response shape. -/
def ContactResponse.status : ContactResponse → Nat
  | .badRequest _ => 400
  | .ok _ => 200
  | .serverError _ => 500
  | .tooMany => 429

/-- JavaScript String.prototype.trim: drop whitespace from both ends,
modelled at the character-list level. -/
def jsTrim (s : String) : String :=
  String.mk (((s.data.dropWhile Char.isWhitespace).reverse.dropWhile
    Char.isWhitespace).reverse)

/-- Validator for body name: trim, then isLength min 2 max 100. -/
def nameOk (r : ContactRequest) : Bool :=
  decide (2 ≤ (jsTrim r.name).length ∧ (jsTrim r.name).length ≤ 100)

/-- Validator for body email: the validator.js isEmail predicate, taken
as a parameter since it is library code, applied to the raw field. -/
def emailOk (isEmail : String → Bool) (r : ContactRequest) : Bool :=
  isEmail r.email

/-- Validator for body subject: trim, then isLength min 2 max 150. -/
def subjectOk (r : ContactRequest) : Bool :=
  decide (2 ≤ (jsTrim r.subject).length ∧ (jsTrim r.subject).length ≤ 150)

/-- Validator for body message: trim, then isLength min 5 max 5000. -/
def messageOk (r : ContactRequest) : Bool :=
  decide (5 ≤ (jsTrim r.message).length ∧ (jsTrim r.message).length ≤ 5000)

/-- The validationResult error array: express-validator runs every chain
and collects one entry per failed chain, in declaration order. -/
def validateContact (isEmail : String → Bool) (r : ContactRequest) : List FieldError :=
  (if nameOk r then [] else [⟨"name", "Name is required"⟩]) ++
  (if emailOk isEmail r then [] else [⟨"email", "Valid email is required"⟩]) ++
  (if subjectOk r then [] else [⟨"subject", "Subject is required"⟩]) ++
  (if messageOk r then [] else [⟨"message", "Message is required"⟩])

/-- The single-quote character, code point 39. -/
def singleQuote : Char := Char.ofNat 39

/-- JavaScript replaceAll with a single-character pattern, at the
character-list level: each occurrence of the pattern character becomes
the replacement list. -/
def replaceAllChar (c : Char) (rep : List Char) (l : List Char) : List Char :=
  l.flatMap fun x => if x = c then rep else [x]

/-- The escapeHtml helper of the server: five sequential replaceAll
calls, on ampersand first, then the angle brackets and both quotes. -/
def escapeHtml (s : String) : String :=
  String.mk
    (replaceAllChar singleQuote "&#039;".data
      (replaceAllChar '"' "&quot;".data
        (replaceAllChar '>' "&gt;".data
          (replaceAllChar '<' "&lt;".data
            (replaceAllChar '&' "&amp;".data s.data)))))

/-- Modelled from the words of the specification: the HTML entity each
character must be embedded as (ampersand, angle brackets, quotes get
entities, every other character stands for itself).  Used to compare the
source escapeHtml against the specified per-character escaping. -/
def htmlEntity (c : Char) : List Char :=
  if c = '&' then "&amp;".data
  else if c = '<' then "&lt;".data
  else if c = '>' then "&gt;".data
  else if c = '"' then "&quot;".data
  else if c = singleQuote then "&#039;".data
  else [c]

/-- The plain-text rendering built in the handler (template literal
followed by trim). -/
def buildText (name email subject message : String) : String :=
  jsTrim ("\nNew message from your portfolio:\n\nName: " ++ name ++
   "\nEmail: " ++ email ++
   "\nSubject: " ++ subject ++
   "\n\nMessage:\n" ++ message ++ "\n")

/-- The HTML rendering built in the handler: the template literal with
every user-supplied interpolation passed through escapeHtml, then trim. -/
def buildHtml (name email subject message : String) : String :=
  jsTrim ("\n<div style=\"font-family:system-ui,-apple-system,Segoe UI,Roboto,Arial,sans-serif\">\n  <h2>New portfolio contact</h2>\n  <p><strong>Name:</strong> " ++
   escapeHtml name ++
   "</p>\n  <p><strong>Email:</strong> " ++
   escapeHtml email ++
   "</p>\n  <p><strong>Subject:</strong> " ++
   escapeHtml subject ++
   "</p>\n  <p><strong>Message:</strong></p>\n  <pre style=\"white-space:pre-wrap;font-family:inherit\">" ++
   escapeHtml message ++
   "</pre>\n</div>")

/-- The app.post handler body, after the rate limiter: run the
validators; on any error answer 400 with the whole error array and send
nothing; otherwise read the sanitized body (trim persisted the trimmed
values, normalizeEmail the normalized email, both passed as the
parameter normEmail), build the mail and attempt exactly one send whose
synchronous outcome is the parameter sendOk (200 Sent on success, 500 on
a transport throw).  The second component lists the sendMail calls made. -/
def contactHandler (cfg : MailConfig) (isEmail : String → Bool)
    (normEmail : String → String) (sendOk : Bool) (r : ContactRequest) :
    ContactResponse × List Mail :=
  let errs := validateContact isEmail r
  if errs.isEmpty then
    let name := jsTrim r.name
    let email := normEmail r.email
    let subject := jsTrim r.subject
    let message := jsTrim r.message
    let m : Mail :=
      { fromAddr := cfg.mailFrom
        toAddr := cfg.mailTo
        replyTo := email
        subject := "📫 Portfolio Contact: " ++ subject
        text := buildText name email subject message
        html := buildHtml name email subject message }
    if sendOk then (ContactResponse.ok "Sent", [m])
    else (ContactResponse.serverError "Failed to send email", [m])
  else
    (ContactResponse.badRequest errs, [])

/-! Rate limiter (express-rate-limit with windowMs 60000 and limit 10,
memory store: one counter and window start per caller identity, created
lazily and reset on rollover). -/

/-- Per-identity limiter state: hit count and window start time (ms). -/
structure RateEntry where
  count : Nat
  windowStart : Nat
deriving DecidableEq, Repr

/-- The limiter store: caller identity to its window state. -/
abbrev RateMap := String → Option RateEntry

/-- Store update for one identity. -/
def updateRate (m : RateMap) (ip : String) (e : RateEntry) : RateMap :=
  fun k => if k = ip then some e else m k

/-- One limiter hit: create the window lazily, reset it on rollover,
otherwise increment; the request is allowed while the incremented count
stays within the limit. -/
def rateLimitCheck (windowMs limit : Nat) (now : Nat) (m : RateMap) (ip : String) :
    RateMap × Bool :=
  match m ip with
  | none => (updateRate m ip ⟨1, now⟩, decide (1 ≤ limit))
  | some e =>
    if now < e.windowStart + windowMs then
      (updateRate m ip ⟨e.count + 1, e.windowStart⟩, decide (e.count + 1 ≤ limit))
    else
      (updateRate m ip ⟨1, now⟩, decide (1 ≤ limit))

/-- One full POST /api/contact request: the rate limiter middleware runs
first with the configured window of 60000 ms and limit 10; only allowed
requests reach the handler body, rejected ones get 429 and no mail. -/
def processRequest (cfg : MailConfig) (isEmail : String → Bool)
    (normEmail : String → String) (sendOk : Bool) (now : Nat) (ip : String)
    (r : ContactRequest) (m : RateMap) : RateMap × ContactResponse × List Mail :=
  let rc := rateLimitCheck 60000 10 now m ip
  if rc.2 then
    let hres := contactHandler cfg isEmail normEmail sendOk r
    (rc.1, hres.1, hres.2)
  else
    (rc.1, ContactResponse.tooMany, [])

/-- Process a sequence of timestamped requests from one identity,
keeping the limiter state. -/
def runWindow (cfg : MailConfig) (isEmail : String → Bool)
    (normEmail : String → String) (sendOk : Bool) (ip : String)
    (reqs : List (Nat × ContactRequest)) (m : RateMap) : RateMap :=
  reqs.foldl (fun acc p => (processRequest cfg isEmail normEmail sendOk p.1 ip p.2 acc).1) m

/-! Startup configuration check. -/

/-- The environment values the server destructures from process.env
(each one absent or a string). -/
structure Env where
  smtpHost : Option String
  smtpPort : Option String
  smtpSecure : Option String
  smtpUser : Option String
  smtpPass : Option String
  mailTo : Option String
  mailFrom : Option String
deriving DecidableEq, Repr

/-- JavaScript truthiness of an optional environment string: undefined
and the empty string are falsy. -/
def truthyStr : Option String → Bool
  | none => false
  | some s => !s.isEmpty

/-- The startup guard of the server: the process exits unless host,
port, user, pass, MAIL_TO and MAIL_FROM are all truthy.  True means the
guard passes and the server goes on to accept requests.  SMTP_SECURE is
not part of the check in the source. -/
def startupOk (e : Env) : Bool :=
  truthyStr e.smtpHost && truthyStr e.smtpPort && truthyStr e.smtpUser &&
  truthyStr e.smtpPass && truthyStr e.mailTo && truthyStr e.mailFrom

/-! Client-side blob store (IndexedDB helpers of Portfolio.jsx). -/

/-- A value stored in the object store, with enough structure to speak
about JavaScript truthiness: a blob (a byte list), a string, or null. -/
inductive JSVal where
  | blob (bytes : List Nat)
  | str (s : String)
  | null
deriving DecidableEq, Repr

/-- JavaScript truthiness of a stored value: blobs are objects and
always truthy, the empty string and null are falsy. -/
def truthyVal : JSVal → Bool
  | .blob _ => true
  | .str s => !s.isEmpty
  | .null => false

/-- The single object store: key to stored value. -/
abbrev Store := String → Option JSVal

/-- The store with no entries. -/
def emptyStore : Store := fun _ => none

/-- idbSet: upsert under the key (the transaction either commits this
whole write or leaves the store untouched). -/
def idbSet (st : Store) (k : String) (v : JSVal) : Store :=
  fun k2 => if k2 = k then some v else st k2

/-- idbDelete: remove the entry; deleting an absent key changes
nothing and succeeds. -/
def idbDelete (st : Store) (k : String) : Store :=
  fun k2 => if k2 = k then none else st k2

/-- idbGet: resolve req.result coalesced with null.  A missing key
resolves (never rejects) to null, and any falsy stored value is also
coalesced to null by the or-null in the source. -/
def idbGet (st : Store) (k : String) : JSVal :=
  match st k with
  | none => JSVal.null
  | some v => if truthyVal v then v else JSVal.null

/-! Photo pipeline controller (Portfolio component). -/

/-- What the profile img src is bound to: the bundled default import or
a minted object URL (identified by its mint sequence number). -/
inductive PicUrl where
  | bundledDefault
  | objectUrl (u : Nat)
deriving DecidableEq, Repr

/-- The controller state: the blob store, the displayed source, the
inline error message, the lastObjectUrlRef ref, plus bookkeeping of all
object URLs ever minted and those revoked (an URL is live when minted
and not revoked). -/
structure ClientState where
  store : Store
  profilePicUrl : PicUrl
  photoError : String
  lastObjectUrl : Option Nat
  minted : List Nat
  revoked : List Nat
  nextUrlId : Nat

/-- The fixed storage key of the profile photo. -/
def profileKey : String := "profilePic"

/-- The inline message set when an upload fails. -/
def saveFailMsg : String :=
  "Failed to save image. Try another image (preferably under ~5MB)."

/-- The inline message set when the mount-time read fails. -/
def loadFailMsg : String :=
  "Couldn" ++ String.mk [singleQuote] ++ "t load saved photo."

/-- Component initial state over a given persisted store: the bundled
default image, no error, a null lastObjectUrlRef, nothing minted. -/
def initState (s : Store) : ClientState :=
  { store := s
    profilePicUrl := PicUrl.bundledDefault
    photoError := ""
    lastObjectUrl := none
    minted := []
    revoked := []
    nextUrlId := 0 }

/-- URL.createObjectURL: mint a fresh object URL. -/
def mintUrl (st : ClientState) : Nat × ClientState :=
  (st.nextUrlId,
   { st with minted := st.minted ++ [st.nextUrlId], nextUrlId := st.nextUrlId + 1 })

/-- The guarded revoke pattern of the source: if lastObjectUrlRef is
set, URL.revokeObjectURL it. -/
def revokeLastIf (st : ClientState) : ClientState :=
  match st.lastObjectUrl with
  | some u => { st with revoked := u :: st.revoked }
  | none => st

/-- The shared install sequence of the mount effect and the upload
handler: mint the URL for the blob, revoke the previous one if any,
record the new one in the ref and display it. -/
def installUrl (st : ClientState) : ClientState :=
  let p := mintUrl st
  let st2 := revokeLastIf p.2
  { st2 with lastObjectUrl := some p.1, profilePicUrl := PicUrl.objectUrl p.1 }

/-- The mount effect: read profilePic; on a truthy blob install a fresh
display URL, on a falsy result keep the default, on a rejected read set
the inline load error (display untouched). -/
def mountLoad (getOk : Bool) (st : ClientState) : ClientState :=
  if getOk then
    if truthyVal (idbGet st.store profileKey) then installUrl st else st
  else
    { st with photoError := loadFailMsg }

/-- handlePhotoPick: clear the error, then decode and re-encode the
file (decodeOk says whether decoding succeeded, enc is the blob
canvas.toBlob produced, none standing for the null it passes on an
encoding failure), store the result and install the display URL.  Any
rejection is caught and sets the save error.  When toBlob produced null
the source stores that null (overwriting the entry) and then
URL.createObjectURL(null) throws into the catch. -/
def handlePhotoPick (decodeOk : Bool) (enc : Option (List Nat)) (setOk : Bool)
    (st : ClientState) : ClientState :=
  let st0 := { st with photoError := "" }
  if decodeOk then
    match enc with
    | some b =>
      if setOk then
        installUrl { st0 with store := idbSet st0.store profileKey (JSVal.blob b) }
      else
        { st0 with photoError := saveFailMsg }
    | none =>
      if setOk then
        { st0 with store := idbSet st0.store profileKey JSVal.null,
                   photoError := saveFailMsg }
      else
        { st0 with photoError := saveFailMsg }
  else
    { st0 with photoError := saveFailMsg }

/-- removePhoto: delete the entry (a rejected delete is swallowed by the
empty catch), revoke the current URL if any, clear the ref and fall back
to the bundled image. -/
def removePhoto (delOk : Bool) (st : ClientState) : ClientState :=
  let st1 := if delOk then { st with store := idbDelete st.store profileKey } else st
  let st2 := revokeLastIf st1
  { st2 with lastObjectUrl := none, profilePicUrl := PicUrl.bundledDefault }

/-- The unmount cleanup of the mount effect: revoke the current URL if
any. -/
def teardown (st : ClientState) : ClientState :=
  revokeLastIf st

/-- The lifecycle operations of the controller. -/
inductive Op where
  | load (getOk : Bool)
  | pick (decodeOk : Bool) (enc : Option (List Nat)) (setOk : Bool)
  | removePic (delOk : Bool)
deriving DecidableEq, Repr

/-- One lifecycle step. -/
def stepOp (op : Op) (st : ClientState) : ClientState :=
  match op with
  | .load g => mountLoad g st
  | .pick d e s => handlePhotoPick d e s st
  | .removePic d => removePhoto d st

/-- Run a lifecycle from the initial state over a persisted store. -/
def runOps (s : Store) (ops : List Op) : ClientState :=
  ops.foldl (fun st op => stepOp op st) (initState s)

/-- An object URL is live when it has been minted and not revoked. -/
def isLive (st : ClientState) (u : Nat) : Prop :=
  u ∈ st.minted ∧ u ∉ st.revoked

instance (st : ClientState) (u : Nat) : Decidable (isLive st u) :=
  inferInstanceAs (Decidable (_ ∧ _))

/-- The controller invariant: minted and revoked identifiers are below
the mint counter, and a URL is live exactly when it is the one recorded
in lastObjectUrlRef. -/
def CtrlInv (st : ClientState) : Prop :=
  (∀ u ∈ st.minted, u < st.nextUrlId) ∧
  (∀ u ∈ st.revoked, u < st.nextUrlId) ∧
  (∀ u, isLive st u ↔ st.lastObjectUrl = some u)

/-! Image normalization (drawToCanvas of Portfolio.jsx). -/

/-- Math.round of the nonnegative quotient num / den, computed exactly:
floor of the quotient plus one half, ties rounding up as in JavaScript. -/
def jsRound (num den : Nat) : Nat := (2 * num + den) / (2 * den)

/-- The target-dimension computation of drawToCanvas with maxSize 768:
bound the longer edge by 768 scaling the other by Math.round, leave
already-bounded images unchanged. -/
def targetDims (width height : Nat) : Nat × Nat :=
  if height < width then
    if 768 < width then (768, jsRound (height * 768) width) else (width, height)
  else
    if 768 < height then (jsRound (width * 768) height, 768) else (width, height)

/-! Theorems. -/

/-- C1: a POST /api/contact request in which at least one of the four
fields fails validation is answered 400 with the full error array, one
entry per violated field and none for a passing field, and no mail send
is attempted. -/
theorem contact_invalid_fields_yield_400_and_no_send
    (cfg : MailConfig) (isEmail : String → Bool) (normEmail : String → String)
    (sendOk : Bool) (r : ContactRequest)
    (h : validateContact isEmail r ≠ []) :
    contactHandler cfg isEmail normEmail sendOk r =
      (ContactResponse.badRequest (validateContact isEmail r), []) ∧
    (ContactResponse.badRequest (validateContact isEmail r)).status = 400 ∧
    (FieldError.mk "name" "Name is required" ∈ validateContact isEmail r ↔
      nameOk r = false) ∧
    (FieldError.mk "email" "Valid email is required" ∈ validateContact isEmail r ↔
      emailOk isEmail r = false) ∧
    (FieldError.mk "subject" "Subject is required" ∈ validateContact isEmail r ↔
      subjectOk r = false) ∧
    (FieldError.mk "message" "Message is required" ∈ validateContact isEmail r ↔
      messageOk r = false) ∧
    (validateContact isEmail r).length =
      (if nameOk r then 0 else 1) + (if emailOk isEmail r then 0 else 1) +
      (if subjectOk r then 0 else 1) + (if messageOk r then 0 else 1) := by
  have hne : (validateContact isEmail r).isEmpty = false := by
    cases hval : validateContact isEmail r with
    | nil => exact absurd hval h
    | cons a l => rfl
  refine ⟨?_, rfl, ?_⟩
  · unfold contactHandler
    simp [hne]
  · cases hn : nameOk r <;> cases he : emailOk isEmail r <;>
      cases hs : subjectOk r <;> cases hm : messageOk r <;>
      simp_all [validateContact]

/-- Witness for C1 at the invalid-email example of the specification:
the response is 400 with exactly one error entry naming the email field,
and no mail is dispatched. -/
theorem contact_invalid_fields_yield_400_and_no_send_witness :
    contactHandler ⟨"from@example.com", "to@example.com"⟩
        (fun s => s == "a@b.com") (fun s => s) true
        ⟨"Al", "not-an-email", "Hi", "hello!"⟩ =
      (ContactResponse.badRequest [⟨"email", "Valid email is required"⟩], []) ∧
    FieldError.mk "email" "Valid email is required" ∈
      validateContact (fun s => s == "a@b.com") ⟨"Al", "not-an-email", "Hi", "hello!"⟩ := by
  have h := contact_invalid_fields_yield_400_and_no_send
    ⟨"from@example.com", "to@example.com"⟩ (fun s => s == "a@b.com") (fun s => s) true
    ⟨"Al", "not-an-email", "Hi", "hello!"⟩ (by decide)
  exact ⟨h.1.trans (by decide), (h.2.2.2.1).mpr (by decide)⟩

/-- The rate-limit map produced by one request is the one produced by the
limiter check alone, whether or not the request was allowed. -/
theorem processRequest_map (cfg : MailConfig) (isEmail : String → Bool)
    (normEmail : String → String) (sendOk : Bool) (now : Nat) (ip : String)
    (r : ContactRequest) (m : RateMap) :
    (processRequest cfg isEmail normEmail sendOk now ip r m).1 =
      (rateLimitCheck 60000 10 now m ip).1 := by
  unfold processRequest
  dsimp only
  split <;> rfl

/-- A request from an identity whose current window already holds ten or
more hits is rejected: 429 and no mail, whatever the request body. -/
theorem rejected_of_full_window (cfg : MailConfig) (isEmail : String → Bool)
    (normEmail : String → String) (sendOk : Bool) (now : Nat) (ip : String)
    (r : ContactRequest) (m : RateMap) (e : RateEntry)
    (hm : m ip = some e) (hwin : now < e.windowStart + 60000) (hc : 10 ≤ e.count) :
    (processRequest cfg isEmail normEmail sendOk now ip r m).2 =
      (ContactResponse.tooMany, []) := by
  unfold processRequest rateLimitCheck
  simp only [hm, if_pos hwin]
  have hnot : ¬ (e.count + 1 ≤ 10) := by omega
  simp [hnot]

/-- Requests from one identity inside its current window increment its
counter one by one and never move the window start. -/
theorem runWindow_count (cfg : MailConfig) (isEmail : String → Bool)
    (normEmail : String → String) (sendOk : Bool) (ip : String) :
    ∀ (reqs : List (Nat × ContactRequest)) (m : RateMap) (c t0 : Nat),
      m ip = some ⟨c, t0⟩ → (∀ p ∈ reqs, p.1 < t0 + 60000) →
      (runWindow cfg isEmail normEmail sendOk ip reqs m) ip =
        some ⟨c + reqs.length, t0⟩ := by
  intro reqs
  induction reqs with
  | nil =>
    intro m c t0 hm _
    simpa [runWindow] using hm
  | cons p rest ih =>
    intro m c t0 hm hall
    have hp : p.1 < t0 + 60000 := hall p (List.mem_cons_self p rest)
    have hstep : (processRequest cfg isEmail normEmail sendOk p.1 ip p.2 m).1 =
        updateRate m ip ⟨c + 1, t0⟩ := by
      rw [processRequest_map]
      unfold rateLimitCheck
      simp only [hm, if_pos hp]
    have hnext : (processRequest cfg isEmail normEmail sendOk p.1 ip p.2 m).1 ip =
        some ⟨c + 1, t0⟩ := by
      rw [hstep]
      simp [updateRate]
    have hrest := ih ((processRequest cfg isEmail normEmail sendOk p.1 ip p.2 m).1)
      (c + 1) t0 hnext (fun q hq => hall q (List.mem_cons_of_mem p hq))
    have harith : c + 1 + rest.length = c + (rest.length + 1) := by omega
    unfold runWindow at hrest ⊢
    rw [List.foldl_cons]
    rw [harith] at hrest
    simpa using hrest

/-- C2: the rate limiter guards the contact route.  First, while an
identity already has at least ten hits inside its current 60 second
window, any further request from it is answered 429 with no mail and no
validation outcome, whatever the body.  Second, starting from a fresh
identity, ten requests inside one window fill it, and an eleventh
request inside the same window is rejected the same way before the
handler body can run. -/
theorem rate_limit_rejects_after_ten_in_window :
    (∀ (cfg : MailConfig) (isEmail : String → Bool) (normEmail : String → String)
       (sendOk : Bool) (now : Nat) (ip : String) (r : ContactRequest)
       (m : RateMap) (e : RateEntry),
       m ip = some e → now < e.windowStart + 60000 → 10 ≤ e.count →
       (processRequest cfg isEmail normEmail sendOk now ip r m).2 =
         (ContactResponse.tooMany, [])) ∧
    (∀ (cfg : MailConfig) (isEmail : String → Bool) (normEmail : String → String)
       (sendOk : Bool) (ip : String) (m0 : RateMap) (t0 : Nat) (r0 : ContactRequest)
       (rest : List (Nat × ContactRequest)) (t11 : Nat) (r11 : ContactRequest),
       m0 ip = none → (∀ p ∈ rest, p.1 < t0 + 60000) → rest.length = 9 →
       t11 < t0 + 60000 →
       (processRequest cfg isEmail normEmail sendOk t11 ip r11
         (runWindow cfg isEmail normEmail sendOk ip ((t0, r0) :: rest) m0)).2 =
         (ContactResponse.tooMany, [])) := by
  constructor
  · intro cfg isEmail normEmail sendOk now ip r m e hm hwin hc
    exact rejected_of_full_window cfg isEmail normEmail sendOk now ip r m e hm hwin hc
  · intro cfg isEmail normEmail sendOk ip m0 t0 r0 rest t11 r11 hnone hall hlen ht
    have hfirst : (processRequest cfg isEmail normEmail sendOk t0 ip r0 m0).1 ip =
        some ⟨1, t0⟩ := by
      rw [processRequest_map]
      unfold rateLimitCheck
      simp only [hnone]
      simp [updateRate]
    have hrun := runWindow_count cfg isEmail normEmail sendOk ip rest
      ((processRequest cfg isEmail normEmail sendOk t0 ip r0 m0).1) 1 t0 hfirst hall
    have hmap : (runWindow cfg isEmail normEmail sendOk ip ((t0, r0) :: rest) m0) ip =
        some ⟨10, t0⟩ := by
      unfold runWindow at hrun ⊢
      rw [List.foldl_cons]
      rw [hlen] at hrun
      exact hrun
    exact rejected_of_full_window cfg isEmail normEmail sendOk t11 ip r11 _ _ hmap ht
      le_rfl

/-- Witness for C2: an identity that sent ten requests at time 0 gets
its eleventh request, sent at 59999 ms with an invalid body, answered
429 with no mail (so neither a 400 nor any validation outcome). -/
theorem rate_limit_rejects_after_ten_in_window_witness :
    (processRequest ⟨"from@example.com", "to@example.com"⟩ (fun _ => true)
      (fun s => s) true 59999 "203.0.113.7" ⟨"", "", "", ""⟩
      (runWindow ⟨"from@example.com", "to@example.com"⟩ (fun _ => true)
        (fun s => s) true "203.0.113.7"
        ((0, ⟨"", "", "", ""⟩) :: List.replicate 9 (0, ⟨"", "", "", ""⟩))
        (fun _ => none))).2 =
      (ContactResponse.tooMany, []) :=
  rate_limit_rejects_after_ten_in_window.2
    ⟨"from@example.com", "to@example.com"⟩ (fun _ => true) (fun s => s) true
    "203.0.113.7" (fun _ => none) 0 ⟨"", "", "", ""⟩
    (List.replicate 9 (0, ⟨"", "", "", ""⟩)) 59999 ⟨"", "", "", ""⟩
    rfl (by decide) (by decide) (by decide)

/-- Each replaceAll pass leaves a character-level flatMap. -/
theorem escapeHtml_flatMap (s : String) :
    escapeHtml s = String.mk
      (s.data.flatMap fun c =>
        (if c = '&' then "&amp;".data else [c]).flatMap fun x1 =>
          (if x1 = '<' then "&lt;".data else [x1]).flatMap fun x2 =>
            (if x2 = '>' then "&gt;".data else [x2]).flatMap fun x3 =>
              (if x3 = '"' then "&quot;".data else [x3]).flatMap fun x4 =>
                if x4 = singleQuote then "&#039;".data else [x4]) := by
  unfold escapeHtml replaceAllChar
  rw [List.flatMap_assoc, List.flatMap_assoc, List.flatMap_assoc, List.flatMap_assoc]

/-- The five sequential passes act on each character exactly as the
per-character entity map of the specification. -/
theorem escapeChar_eq (c : Char) :
    ((if c = '&' then "&amp;".data else [c]).flatMap fun x1 =>
      (if x1 = '<' then "&lt;".data else [x1]).flatMap fun x2 =>
        (if x2 = '>' then "&gt;".data else [x2]).flatMap fun x3 =>
          (if x3 = '"' then "&quot;".data else [x3]).flatMap fun x4 =>
            if x4 = singleQuote then "&#039;".data else [x4]) = htmlEntity c := by
  by_cases h1 : c = '&'
  · subst h1; decide
  by_cases h2 : c = '<'
  · subst h2; decide
  by_cases h3 : c = '>'
  · subst h3; decide
  by_cases h4 : c = '"'
  · subst h4; decide
  by_cases h5 : c = singleQuote
  · subst h5; decide
  simp [htmlEntity, h1, h2, h3, h4, h5]

set_option maxRecDepth 100000 in
/-- C3: the HTML rendering embeds only escaped user text.  First, the
escapeHtml of the source replaces every occurrence of ampersand, the
angle brackets, the double quote and the single quote by its HTML entity
and leaves every other character unchanged (it equals the per-character
entity map on any string).  Second, on the specification example, a
message containing a script tag appears in the mail HTML as the literal
escaped text and the unescaped tag is nowhere in it. -/
theorem contact_html_escapes_user_text :
    (∀ s : String, escapeHtml s = String.mk (s.data.flatMap htmlEntity)) ∧
    "&lt;script&gt;alert(1)&lt;/script&gt;".data <:+:
      (buildHtml "Bob" "b@x.com" "Hi" "hello <script>alert(1)</script>").data ∧
    ¬ ("<script>".data <:+:
      (buildHtml "Bob" "b@x.com" "Hi" "hello <script>alert(1)</script>").data) := by
  refine ⟨?_, by decide, by decide⟩
  intro s
  rw [escapeHtml_flatMap]
  exact congrArg String.mk (congrArg s.data.flatMap (funext escapeChar_eq))

/-- Rounded scaling of the strictly shorter edge never exceeds the
bound. -/
theorem jsRound_le (num den k : Nat) (hden : 0 < den)
    (h : 2 * num + den < (k + 1) * (2 * den)) : jsRound num den ≤ k := by
  unfold jsRound
  have hlt : (2 * num + den) / (2 * den) < k + 1 :=
    (Nat.div_lt_iff_lt_mul (by omega)).mpr h
  omega

/-- C4: the target dimensions computed by drawToCanvas keep the longer
edge within 768, leave images already within bound untouched, and on a
scaled image set the longer edge to exactly 768 and the shorter edge to
the Math.round scaling of the input shorter edge. -/
theorem normalize_dims_bounded_and_aspect (w h : Nat) (hw : 0 < w) (hh : 0 < h) :
    max (targetDims w h).1 (targetDims w h).2 ≤ 768 ∧
    (max w h ≤ 768 → targetDims w h = (w, h)) ∧
    (768 < max w h →
      max (targetDims w h).1 (targetDims w h).2 = 768 ∧
      min (targetDims w h).1 (targetDims w h).2 = jsRound (min w h * 768) (max w h)) := by
  unfold targetDims
  by_cases hlt : h < w
  · have hmax : max w h = w := Nat.max_eq_left (Nat.le_of_lt hlt)
    have hmin : min w h = h := Nat.min_eq_right (Nat.le_of_lt hlt)
    by_cases hbig : 768 < w
    · simp only [if_pos hlt, if_pos hbig]
      have haux : 1536 * (h + 1) ≤ 1536 * w := Nat.mul_le_mul_left 1536 hlt
      have hr : jsRound (h * 768) w ≤ 768 := by
        apply jsRound_le _ _ _ (by omega)
        omega
      refine ⟨?_, ?_, ?_⟩
      · simp [Nat.max_le, hr]
      · intro hle
        rw [hmax] at hle
        omega
      · intro _
        rw [hmax, hmin]
        constructor
        · exact Nat.max_eq_left hr
        · exact Nat.min_eq_right hr
    · simp only [if_pos hlt, if_neg hbig]
      refine ⟨?_, fun _ => trivial, ?_⟩
      · simp [Nat.max_le]
        omega
      · intro hgt
        rw [hmax] at hgt
        omega
  · have hwle : w ≤ h := Nat.le_of_not_lt hlt
    have hmax : max w h = h := Nat.max_eq_right hwle
    have hmin : min w h = w := Nat.min_eq_left hwle
    by_cases hbig : 768 < h
    · simp only [if_neg hlt, if_pos hbig]
      have haux : 1536 * w ≤ 1536 * h := Nat.mul_le_mul_left 1536 hwle
      have hr : jsRound (w * 768) h ≤ 768 := by
        apply jsRound_le _ _ _ (by omega)
        omega
      refine ⟨?_, ?_, ?_⟩
      · simp [Nat.max_le, hr]
      · intro hle
        rw [hmax] at hle
        omega
      · intro _
        rw [hmax, hmin]
        constructor
        · exact Nat.max_eq_right hr
        · exact Nat.min_eq_left hr
    · simp only [if_neg hlt, if_neg hbig]
      refine ⟨?_, fun _ => trivial, ?_⟩
      · simp [Nat.max_le]
        omega
      · intro hgt
        rw [hmax] at hgt
        omega

/-- Witness for C4 at a 1000 by 500 image: the output is 768 by 384,
its longer edge is 768 and 384 is the exact Math.round scaling. -/
theorem normalize_dims_bounded_and_aspect_witness :
    targetDims 1000 500 = (768, 384) ∧
    max (targetDims 1000 500).1 (targetDims 1000 500).2 ≤ 768 ∧
    (768 < max 1000 500 →
      max (targetDims 1000 500).1 (targetDims 1000 500).2 = 768 ∧
      min (targetDims 1000 500).1 (targetDims 1000 500).2 =
        jsRound (min 1000 500 * 768) (max 1000 500)) := by
  have h := normalize_dims_bounded_and_aspect 1000 500 (by decide) (by decide)
  exact ⟨by decide, h.1, h.2.2⟩

/-- C5 counterexample: the startup guard does not check SMTP_SECURE.
An environment with every other mail value present but the secure flag
absent passes the guard, so the process starts and serves requests,
contradicting the claim that any absent required value (the secure flag
included) prevents startup. -/
theorem startup_secure_flag_not_required :
    startupOk ⟨some "smtp.example.com", some "465", none, some "user",
      some "pass", some "dest@example.com", some "src@example.com"⟩ = true ∧
    (Env.mk (some "smtp.example.com") (some "465") none (some "user")
      (some "pass") (some "dest@example.com") (some "src@example.com")).smtpSecure
      = none := by
  exact ⟨rfl, rfl⟩

/-- C5 amended: if any of the six values the source does check — host,
port, user, password, recipient, sender — is absent, the guard fails and
the process exits before listening; the secure flag is not part of the
check. -/
theorem startup_missing_required_refuses (e : Env)
    (h : e.smtpHost = none ∨ e.smtpPort = none ∨ e.smtpUser = none ∨
         e.smtpPass = none ∨ e.mailTo = none ∨ e.mailFrom = none) :
    startupOk e = false := by
  rcases h with h | h | h | h | h | h <;> simp [startupOk, truthyStr, h]

/-- Witness for the amended C5: an environment lacking the host fails
the guard. -/
theorem startup_missing_required_refuses_witness :
    startupOk ⟨none, some "465", some "true", some "user", some "pass",
      some "dest@example.com", some "src@example.com"⟩ = false :=
  startup_missing_required_refuses _ (Or.inl rfl)

/-- C9: a request that passes validation, with a transport whose
synchronous send succeeds, is answered 200 with ok true and message
Sent, and exactly one mail is dispatched, from the configured sender to
the configured recipient, with the caller email (as sanitized by
normalizeEmail) as the reply-to address; the handler makes no second
attempt. -/
theorem valid_contact_sends_once (cfg : MailConfig) (isEmail : String → Bool)
    (normEmail : String → String) (r : ContactRequest)
    (h : validateContact isEmail r = []) :
    contactHandler cfg isEmail normEmail true r =
      (ContactResponse.ok "Sent",
       [{ fromAddr := cfg.mailFrom
          toAddr := cfg.mailTo
          replyTo := normEmail r.email
          subject := "📫 Portfolio Contact: " ++ jsTrim r.subject
          text := buildText (jsTrim r.name) (normEmail r.email)
            (jsTrim r.subject) (jsTrim r.message)
          html := buildHtml (jsTrim r.name) (normEmail r.email)
            (jsTrim r.subject) (jsTrim r.message) }]) ∧
    (ContactResponse.ok "Sent").status = 200 := by
  refine ⟨?_, rfl⟩
  unfold contactHandler
  simp [h]

set_option maxRecDepth 100000 in
/-- Witness for C9 at the specification example body: name Al, email
a@b.com, subject Hi, message hello, validation passes and the
handler answers 200 Sent with exactly one mail. -/
theorem valid_contact_sends_once_witness :
    validateContact (fun _ => true) ⟨"Al", "a@b.com", "Hi", "hello!"⟩ = [] ∧
    contactHandler ⟨"from@example.com", "to@example.com"⟩ (fun _ => true)
        (fun s => s) true ⟨"Al", "a@b.com", "Hi", "hello!"⟩ =
      (ContactResponse.ok "Sent",
       [{ fromAddr := "from@example.com"
          toAddr := "to@example.com"
          replyTo := "a@b.com"
          subject := "📫 Portfolio Contact: Hi"
          text := buildText "Al" "a@b.com" "Hi" "hello!"
          html := buildHtml "Al" "a@b.com" "Hi" "hello!" }]) := by
  refine ⟨by decide, ?_⟩
  have h := valid_contact_sends_once ⟨"from@example.com", "to@example.com"⟩
    (fun _ => true) (fun s => s) ⟨"Al", "a@b.com", "Hi", "hello!"⟩ (by decide)
  exact h.1.trans (by decide)

/-- C8: the blob store contract.  A put of a blob followed by a get on
the same key returns that very blob; a delete followed by a get returns
the explicit absent result; a get on a missing key resolves to the
absent result (the operation is total, it never raises for a missing
key); and a delete of a missing key leaves the store unchanged. -/
theorem blob_store_contract :
    (∀ (st : Store) (k : String) (b : List Nat),
      idbGet (idbSet st k (JSVal.blob b)) k = JSVal.blob b) ∧
    (∀ (st : Store) (k : String), idbGet (idbDelete st k) k = JSVal.null) ∧
    (∀ (st : Store) (k : String), st k = none →
      idbGet st k = JSVal.null ∧ idbDelete st k = st) := by
  refine ⟨?_, ?_, ?_⟩
  · intro st k b
    simp [idbGet, idbSet, truthyVal]
  · intro st k
    simp [idbGet, idbDelete]
  · intro st k h
    refine ⟨by simp [idbGet, h], funext fun k2 => ?_⟩
    by_cases hk : k2 = k
    · subst hk
      simp [idbDelete, h]
    · simp [idbDelete, hk]

/-- Witness for C8 on the empty store at the profilePic key: a get
resolves to null and a delete is a no-op. -/
theorem blob_store_contract_witness :
    idbGet emptyStore "profilePic" = JSVal.null ∧
    idbDelete emptyStore "profilePic" = emptyStore :=
  blob_store_contract.2.2 emptyStore "profilePic" rfl

/-- C10: the or-null coalescing in idbGet makes any falsy stored value
indistinguishable from an absent entry: a stored falsy value (null, the
empty string) resolves to null, exactly what a get after deleting the
key resolves to. -/
theorem idb_get_coalesces_falsy (st : Store) (k : String) (v : JSVal)
    (hv : st k = some v) (hf : truthyVal v = false) :
    idbGet st k = JSVal.null ∧
    idbGet st k = idbGet (idbDelete st k) k := by
  refine ⟨by simp [idbGet, hv, hf], ?_⟩
  simp [idbGet, hv, hf, idbDelete]

/-- Witness for C10: a stored empty string is read back as null, the
same as after deleting the entry. -/
theorem idb_get_coalesces_falsy_witness :
    idbGet (idbSet emptyStore "profilePic" (JSVal.str "")) "profilePic" =
      JSVal.null ∧
    idbGet (idbSet emptyStore "profilePic" (JSVal.str "")) "profilePic" =
      idbGet (idbDelete (idbSet emptyStore "profilePic" (JSVal.str ""))
        "profilePic") "profilePic" :=
  idb_get_coalesces_falsy (idbSet emptyStore "profilePic" (JSVal.str ""))
    "profilePic" (JSVal.str "") (by decide) rfl

/-- C6 (divergence witness): an upload whose canvas re-encode fails
(toBlob passes null) while a previous photo is stored.  The claim says
any failed attempt leaves the stored entry unchanged; the source instead
stores the null over the previous blob (idbSet runs before
createObjectURL throws into the catch), so the stored entry changes.
The display state and the inline error behave as claimed. -/
theorem reencode_null_clobbers_store :
    (initState (idbSet emptyStore profileKey (JSVal.blob [7]))).store profileKey =
      some (JSVal.blob [7]) ∧
    (handlePhotoPick true none true
      (initState (idbSet emptyStore profileKey (JSVal.blob [7])))).store profileKey =
      some JSVal.null ∧
    some JSVal.null ≠ some (JSVal.blob [7]) ∧
    (handlePhotoPick true none true
      (initState (idbSet emptyStore profileKey (JSVal.blob [7])))).photoError =
      saveFailMsg ∧
    (handlePhotoPick true none true
      (initState (idbSet emptyStore profileKey (JSVal.blob [7])))).profilePicUrl =
      (initState (idbSet emptyStore profileKey (JSVal.blob [7]))).profilePicUrl := by
  refine ⟨rfl, rfl, by decide, rfl, rfl⟩

/-- Explicit form of the mint-revoke-install sequence. -/
theorem installUrl_eq (st : ClientState) :
    installUrl st =
      { st with
        minted := st.minted ++ [st.nextUrlId]
        nextUrlId := st.nextUrlId + 1
        revoked := (match st.lastObjectUrl with
                    | some u => u :: st.revoked
                    | none => st.revoked)
        lastObjectUrl := some st.nextUrlId
        profilePicUrl := PicUrl.objectUrl st.nextUrlId } := by
  unfold installUrl mintUrl revokeLastIf
  cases st.lastObjectUrl <;> rfl

/-- Explicit form of the removal sequence. -/
theorem removePhoto_eq (d : Bool) (st : ClientState) :
    removePhoto d st =
      { st with
        store := if d then idbDelete st.store profileKey else st.store
        revoked := (match st.lastObjectUrl with
                    | some u => u :: st.revoked
                    | none => st.revoked)
        lastObjectUrl := none
        profilePicUrl := PicUrl.bundledDefault } := by
  cases d <;> cases hl : st.lastObjectUrl <;>
    simp [removePhoto, revokeLastIf, hl]

/-- The controller invariant only looks at the reference bookkeeping, so
it transports along equality of those four fields. -/
theorem ctrlInv_congr (a b : ClientState)
    (hm : a.minted = b.minted) (hr : a.revoked = b.revoked)
    (hn : a.nextUrlId = b.nextUrlId) (hl : a.lastObjectUrl = b.lastObjectUrl)
    (h : CtrlInv a) : CtrlInv b := by
  obtain ⟨h1, h2, h3⟩ := h
  refine ⟨?_, ?_, ?_⟩
  · intro u hu
    rw [← hm] at hu
    rw [← hn]
    exact h1 u hu
  · intro u hu
    rw [← hr] at hu
    rw [← hn]
    exact h2 u hu
  · intro u
    unfold isLive
    rw [← hm, ← hr, ← hl]
    exact h3 u

/-- The controller invariant survives the install sequence. -/
theorem ctrlInv_installUrl (st : ClientState) (h : CtrlInv st) :
    CtrlInv (installUrl st) := by
  obtain ⟨h1, h2, h3⟩ := h
  rw [installUrl_eq]
  cases hl : st.lastObjectUrl with
  | none =>
    refine ⟨?_, ?_, ?_⟩ <;> dsimp only [isLive]
    · intro u hu
      simp only [List.mem_append, List.mem_singleton] at hu
      rcases hu with hu | hu
      · exact Nat.lt_succ_of_lt (h1 u hu)
      · omega
    · intro u hu
      exact Nat.lt_succ_of_lt (h2 u hu)
    · intro u
      constructor
      · rintro ⟨hm, hr⟩
        simp only [List.mem_append, List.mem_singleton] at hm
        rcases hm with hm | hm
        · exfalso
          have hlive : isLive st u := ⟨hm, hr⟩
          have hsome := (h3 u).mp hlive
          rw [hl] at hsome
          exact Option.noConfusion hsome
        · exact congrArg some hm.symm
      · intro he
        have hu : u = st.nextUrlId := (Option.some.inj he).symm
        subst hu
        refine ⟨by simp, fun hr => ?_⟩
        exact absurd (h2 _ hr) (by omega)
  | some u0 =>
    have hu0 : isLive st u0 := (h3 u0).mpr hl
    have hu0n : u0 < st.nextUrlId := h1 u0 hu0.1
    refine ⟨?_, ?_, ?_⟩ <;> dsimp only [isLive]
    · intro u hu
      simp only [List.mem_append, List.mem_singleton] at hu
      rcases hu with hu | hu
      · exact Nat.lt_succ_of_lt (h1 u hu)
      · omega
    · intro u hu
      rcases List.mem_cons.mp hu with hu | hu
      · omega
      · exact Nat.lt_succ_of_lt (h2 u hu)
    · intro u
      constructor
      · rintro ⟨hm, hr⟩
        simp only [List.mem_append, List.mem_singleton] at hm
        have hr2 : u ≠ u0 ∧ u ∉ st.revoked := by
          constructor
          · intro hq
            exact hr (by rw [hq]; exact List.mem_cons_self u0 st.revoked)
          · intro hq
            exact hr (List.mem_cons_of_mem u0 hq)
        rcases hm with hm | hm
        · exfalso
          have hlive : isLive st u := ⟨hm, hr2.2⟩
          have hsome := (h3 u).mp hlive
          rw [hl] at hsome
          exact hr2.1 (Option.some.inj hsome).symm
        · exact congrArg some hm.symm
      · intro he
        have hu : u = st.nextUrlId := (Option.some.inj he).symm
        subst hu
        refine ⟨by simp, fun hr => ?_⟩
        rcases List.mem_cons.mp hr with hq | hq
        · omega
        · exact absurd (h2 _ hq) (by omega)

/-- The controller invariant survives the mount-time load. -/
theorem ctrlInv_mountLoad (g : Bool) (st : ClientState) (h : CtrlInv st) :
    CtrlInv (mountLoad g st) := by
  unfold mountLoad
  cases g with
  | false => exact ctrlInv_congr st _ rfl rfl rfl rfl h
  | true =>
    cases ht : truthyVal (idbGet st.store profileKey) with
    | false => exact ctrlInv_congr st _ rfl rfl rfl rfl h
    | true =>
      show CtrlInv (installUrl st)
      exact ctrlInv_installUrl st h

/-- The controller invariant survives an upload attempt, successful or
not. -/
theorem ctrlInv_pick (d : Bool) (e : Option (List Nat)) (sOk : Bool)
    (st : ClientState) (h : CtrlInv st) : CtrlInv (handlePhotoPick d e sOk st) := by
  unfold handlePhotoPick
  cases d with
  | false => exact ctrlInv_congr st _ rfl rfl rfl rfl h
  | true =>
    cases e with
    | some b =>
      cases sOk with
      | true =>
        show CtrlInv (installUrl
          { st with photoError := "",
                    store := idbSet st.store profileKey (JSVal.blob b) })
        exact ctrlInv_installUrl _ (ctrlInv_congr st _ rfl rfl rfl rfl h)
      | false => exact ctrlInv_congr st _ rfl rfl rfl rfl h
    | none =>
      cases sOk with
      | true => exact ctrlInv_congr st _ rfl rfl rfl rfl h
      | false => exact ctrlInv_congr st _ rfl rfl rfl rfl h

/-- The controller invariant survives photo removal. -/
theorem ctrlInv_remove (d : Bool) (st : ClientState) (h : CtrlInv st) :
    CtrlInv (removePhoto d st) := by
  obtain ⟨h1, h2, h3⟩ := h
  rw [removePhoto_eq]
  cases hl : st.lastObjectUrl with
  | none =>
    refine ⟨?_, ?_, ?_⟩ <;> dsimp only [isLive]
    · exact h1
    · exact h2
    · intro u
      constructor
      · rintro ⟨hm, hr⟩
        have hsome := (h3 u).mp ⟨hm, hr⟩
        rw [hl] at hsome
        exact Option.noConfusion hsome
      · intro he
        exact Option.noConfusion he
  | some u0 =>
    have hu0 : isLive st u0 := (h3 u0).mpr hl
    have hu0n : u0 < st.nextUrlId := h1 u0 hu0.1
    refine ⟨?_, ?_, ?_⟩ <;> dsimp only [isLive]
    · exact h1
    · intro u hu
      rcases List.mem_cons.mp hu with hu | hu
      · omega
      · exact h2 u hu
    · intro u
      constructor
      · rintro ⟨hm, hr⟩
        exfalso
        have hr2 : u ≠ u0 ∧ u ∉ st.revoked := by
          constructor
          · intro hq
            exact hr (by rw [hq]; exact List.mem_cons_self u0 st.revoked)
          · intro hq
            exact hr (List.mem_cons_of_mem u0 hq)
        have hsome := (h3 u).mp ⟨hm, hr2.2⟩
        rw [hl] at hsome
        exact hr2.1 (Option.some.inj hsome).symm
      · intro he
        exact Option.noConfusion he

/-- The controller invariant survives each lifecycle step. -/
theorem ctrlInv_stepOp (op : Op) (st : ClientState) (h : CtrlInv st) :
    CtrlInv (stepOp op st) := by
  cases op with
  | load g => exact ctrlInv_mountLoad g st h
  | pick d e sOk => exact ctrlInv_pick d e sOk st h
  | removePic d => exact ctrlInv_remove d st h

/-- The controller invariant holds initially. -/
theorem ctrlInv_init (s : Store) : CtrlInv (initState s) := by
  refine ⟨?_, ?_, fun u => ?_⟩
  · intro u hu
    exact absurd hu (List.not_mem_nil u)
  · intro u hu
    exact absurd hu (List.not_mem_nil u)
  · constructor
    · rintro ⟨hm, _⟩
      exact absurd hm (List.not_mem_nil u)
    · intro he
      exact Option.noConfusion he

/-- The controller invariant holds after any lifecycle run. -/
theorem ctrlInv_runOps (s : Store) (ops : List Op) : CtrlInv (runOps s ops) := by
  unfold runOps
  have hfold : ∀ (l : List Op) (st : ClientState), CtrlInv st →
      CtrlInv (l.foldl (fun st op => stepOp op st) st) := by
    intro l
    induction l with
    | nil => intro st h; exact h
    | cons op rest ih =>
      intro st h
      rw [List.foldl_cons]
      exact ih _ (ctrlInv_stepOp op st h)
  exact hfold ops _ (ctrlInv_init s)

/-- C7: over every lifecycle (any sequence of mount loads, uploads and
removals over any persisted store) at most one display reference is
live; every minted reference other than the one recorded in the ref is
already revoked (so the prior reference is invalidated whenever a
replacement was installed); and after the teardown cleanup no reference
is live at all. -/
theorem display_reference_invariant (s : Store) (ops : List Op) :
    (∀ u v, isLive (runOps s ops) u → isLive (runOps s ops) v → u = v) ∧
    (∀ u, u ∈ (runOps s ops).minted →
      (runOps s ops).lastObjectUrl ≠ some u → u ∈ (runOps s ops).revoked) ∧
    (∀ u, ¬ isLive (teardown (runOps s ops)) u) := by
  obtain ⟨h1, h2, h3⟩ := ctrlInv_runOps s ops
  refine ⟨?_, ?_, ?_⟩
  · intro u v hu hv
    have hu2 := (h3 u).mp hu
    have hv2 := (h3 v).mp hv
    rw [hu2] at hv2
    exact Option.some.inj hv2
  · intro u hm hne
    by_contra hr
    exact hne ((h3 u).mp ⟨hm, hr⟩)
  · intro u hlive
    unfold teardown revokeLastIf at hlive
    cases hl : (runOps s ops).lastObjectUrl with
    | none =>
      rw [hl] at hlive
      have := (h3 u).mp hlive
      rw [hl] at this
      exact Option.noConfusion this
    | some u0 =>
      rw [hl] at hlive
      obtain ⟨hm, hr⟩ := hlive
      have hr2 : u ≠ u0 ∧ u ∉ (runOps s ops).revoked := by
        constructor
        · intro hq
          exact hr (by rw [hq]; exact List.mem_cons_self u0 (runOps s ops).revoked)
        · intro hq
          exact hr (List.mem_cons_of_mem u0 hq)
      have := (h3 u).mp ⟨hm, hr2.2⟩
      rw [hl] at this
      exact hr2.1 (Option.some.inj this).symm

/-- Witness for C7: after two successful uploads over an empty store the
first reference (id 0) is revoked, the second (id 1) is the only live
one, and nothing is live after teardown. -/
theorem display_reference_invariant_witness :
    0 ∈ (runOps emptyStore
      [Op.pick true (some [1, 2]) true, Op.pick true (some [3]) true]).revoked ∧
    (1 : Nat) = 1 ∧
    ¬ isLive (teardown (runOps emptyStore
      [Op.pick true (some [1, 2]) true, Op.pick true (some [3]) true])) 0 := by
  refine ⟨?_, ?_, ?_⟩
  · exact (display_reference_invariant emptyStore
      [Op.pick true (some [1, 2]) true, Op.pick true (some [3]) true]).2.1 0
      (by decide) (by decide)
  · exact (display_reference_invariant emptyStore
      [Op.pick true (some [1, 2]) true, Op.pick true (some [3]) true]).1 1 1
      (by decide) (by decide)
  · exact (display_reference_invariant emptyStore
      [Op.pick true (some [1, 2]) true, Op.pick true (some [3]) true]).2.2 0

end MyPortfolio
